import Mathlib

/-!
# Shallow embedding of a C++ type-erasure capability framework

This file embeds, in Lean, the data model and operations of a small C++
type-erasure code base:

* a capability-cast framework (namespace `CapCast`): concrete operation
  types (`AddOp`, `SubOp`, `LoadOp`) declare a list of interface traits
  through a `TraitManager`; the manager's constructor builds, for each
  declared trait, one `Model` object on the heap and stores its `Concept`
  pointer in a trait slot; `cast_to_interface` checks trait membership and
  either returns an interface handle or raises a runtime error;
* a concept-based-polymorphism example (namespace `ConceptPoly`): external
  types exposing `render()` are adapted to a `draw()` concept by
  specialized `Model`s, an internal type conforms directly, and the
  type-erasing wrappers (`Drawable`, `Animal`) guard their implementation
  pointer before forwarding.

The heap of allocated `Model` objects is made explicit as a `World`, so
that allocation freshness, slot initialization and the absence of side
effects become provable statements instead of conventions.
-/

namespace CapCast

/-- The interface types defined in the source: only `SideEffectsInterface`
(the `Interface` template parameter of `cast_to_interface` is identified by
its `Interface::Trait` type). -/
inductive InterfaceId where
  | sideEffects
deriving DecidableEq

/-- A concrete op type, as determined by its C++ class definition: the
trait list it passes to `TraitManager<Derived, Traits...>`, and the result
of its `hasSideEffect()` member (the source methods take no arguments and
read no object state, so each is characterized by its constant result). -/
structure OpType where
  declaredTraits : List InterfaceId
  hasSideEffect : Bool
deriving DecidableEq

/-- `class AddOp : public TraitManager<AddOp, SideEffectsInterface::Trait>`
with `hasSideEffect()` returning `false`. -/
def AddOp : OpType :=
  { declaredTraits := [InterfaceId.sideEffects], hasSideEffect := false }

/-- `class SubOp : public TraitManager<SubOp, SideEffectsInterface::Trait>`
with `hasSideEffect()` returning `false`. -/
def SubOp : OpType :=
  { declaredTraits := [InterfaceId.sideEffects], hasSideEffect := false }

/-- `class LoadOp : public TraitManager<LoadOp, SideEffectsInterface::Trait>`
with `hasSideEffect()` returning `true`. -/
def LoadOp : OpType :=
  { declaredTraits := [InterfaceId.sideEffects], hasSideEffect := true }

/-- The heap of `Model` objects created by `new` inside
`Trait::initialize`.  `nextId` is the next fresh address; `models` maps an
address to the concrete type the `Model` allocated there is bound to
(`Model<ConcreteOp>` carries no data, only its template parameter). -/
structure World where
  nextId : Nat
  models : Nat → Option OpType

/-- The empty heap, before any concrete-op instance is constructed. -/
def World.empty : World := ⟨0, fun _ => none⟩

/-- A heap is well formed when no `Model` lives at or above `nextId`. -/
def World.WF (σ : World) : Prop :=
  ∀ n, σ.nextId ≤ n → σ.models n = none

/-- One `BaseInterface::Trait` slot: the interface it belongs to and the
`Concept*` pointer `vconcept` (`none` models the uninitialized pointer of
a slot whose `initialize` has not run). -/
structure TraitSlot where
  iface : InterfaceId
  vconcept : Option Nat
deriving DecidableEq

/-- A constructed concrete-op instance: its concrete type and its tuple of
trait slots (the `std::tuple<Traits...> traits` member of `TraitManager`). -/
structure OpInstance where
  ty : OpType
  slots : List TraitSlot
deriving DecidableEq

/-- `Trait::initialize<ConcreteType>()`:
`vconcept = new Traits::Model<ConcreteType>()` — allocates a fresh `Model`
bound to the concrete type and stores its address in the slot. -/
def Trait.initModel (σ : World) (ty : OpType) (i : InterfaceId) :
    World × TraitSlot :=
  (⟨σ.nextId + 1, fun n => if n = σ.nextId then some ty else σ.models n⟩,
   ⟨i, some σ.nextId⟩)

/-- `TraitManager::initTraits`: the fold expression
`(std::get<Is>(traits).template initialize<Derived>(), ...)` runs
`initialize` once on every slot, left to right. -/
def TraitManager.initTraits (σ : World) (ty : OpType) :
    List InterfaceId → World × List TraitSlot
  | [] => (σ, [])
  | i :: rest =>
    let p := Trait.initModel σ ty i
    let q := TraitManager.initTraits p.1 ty rest
    (q.1, p.2 :: q.2)

/-- The `TraitManager` constructor: `initTraits(index_sequence_for<Traits...>)`
runs over the full declared trait list at construction time. -/
def mkOpInstance (σ : World) (ty : OpType) : World × OpInstance :=
  let p := TraitManager.initTraits σ ty ty.declaredTraits
  (p.1, ⟨ty, p.2⟩)

/-- `TraitManager::getTraitConcept<Trait>()`:
`std::get<Trait>(traits).getConcept()` — selects the slot of the requested
trait type and reads its `Concept*`. -/
def TraitManager.getTraitConcept (inst : OpInstance) (i : InterfaceId) :
    Option Nat :=
  match inst.slots.find? (fun s => decide (s.iface = i)) with
  | some s => s.vconcept
  | none => none

/-- The message of the `std::runtime_error` thrown by `cast_to_interface`
when the trait pack does not contain the requested interface's trait. -/
def unsupportedInterfaceMsg : String := "Op does not implement interface"

/-- The error class of a failed capability cast (the spec's
`UnsupportedInterface`), carrying exactly what the thrown
`std::runtime_error` carries: its message string. -/
inductive CastError where
  | unsupportedInterface (msg : String)
deriving DecidableEq

/-- The interface handle `SideEffectsInterface` (a `BaseInterface`): the
type-erased `void* entity` it was bound to and the `Concept* vconcept` it
dispatches through. -/
structure SideEffectsInterface where
  entity : OpInstance
  vconcept : Option Nat
deriving DecidableEq

/-- `Traits::Model<ConcreteOp>::hasSideEffect(void* op)`:
`static_cast<ConcreteOp*>(op)->hasSideEffect()`.  The member call is
non-virtual and is resolved to the bound template parameter's method,
which reads no object state, so the result is the bound type's constant. -/
def Model.hasSideEffect (boundTy : OpType) (_ : OpInstance) : Bool :=
  boundTy.hasSideEffect

/-- `SideEffectsInterface::hasSideEffect()`:
`getImpl()->hasSideEffect(getEntity())` — dispatches through the stored
`Concept*` into the heap.  `none` models the crash of dereferencing a null
or dangling pointer. -/
def SideEffectsInterface.hasSideEffect (hd : SideEffectsInterface)
    (σ : World) : Option Bool :=
  match hd.vconcept with
  | some k =>
    match σ.models k with
    | some boundTy => some (Model.hasSideEffect boundTy hd.entity)
    | none => none
  | none => none

/-- `cast_to_interface<Interface>(TraitManager<Derived, Traits...>* animal)`:
`if constexpr ((is_same_v<Traits, Interface::Trait> || ...))` — when the
declared trait pack contains the interface's trait, build
`Interface(animal, getTraitConcept<Interface::Trait>())`; otherwise
`throw std::runtime_error(...)`.  The heap and the instance are threaded
through unchanged, mirroring that the source reads but never writes. -/
def cast_to_interface (σ : World) (i : InterfaceId) (inst : OpInstance) :
    World × OpInstance × Except CastError SideEffectsInterface :=
  if i ∈ inst.ty.declaredTraits then
    (σ, inst, Except.ok ⟨inst, TraitManager.getTraitConcept inst i⟩)
  else
    (σ, inst,
      Except.error (CastError.unsupportedInterface unsupportedInterfaceMsg))

/-- Cast an instance to `SideEffectsInterface` and invoke `hasSideEffect`
through the resulting handle; `none` when the cast throws or the dispatch
would crash. -/
def castAndQuery (σ : World) (inst : OpInstance) : Option Bool :=
  match (cast_to_interface σ InterfaceId.sideEffects inst).2.2 with
  | Except.ok hd => hd.hasSideEffect σ
  | Except.error _ => none

/-- The `Model` addresses held by an instance's trait slots. -/
def OpInstance.slotIds (inst : OpInstance) : List Nat :=
  inst.slots.filterMap TraitSlot.vconcept

/-- Whether `cast_to_interface` returns normally (`true`) or throws
(`false`). -/
def castSucceeds (σ : World) (i : InterfaceId) (inst : OpInstance) : Bool :=
  match (cast_to_interface σ i inst).2.2 with
  | Except.ok _ => true
  | Except.error _ => false

end CapCast

namespace ConceptPoly

/-- An external, unmodifiable type exposing `render()` (no data members). -/
structure ExternalCircle where
deriving DecidableEq

/-- An external, unmodifiable type exposing `render()` (no data members). -/
structure ExternalSquare where
deriving DecidableEq

/-- An internal type already conforming to the `draw` vocabulary. -/
structure InternalTriangle where
deriving DecidableEq

/-- A type exposing `makeNoise()` (no data members). -/
structure Dog where
deriving DecidableEq

/-- A type exposing `makeNoise()` (no data members). -/
structure Cat where
deriving DecidableEq

/-- `ExternalCircle::render()`: the lines it prints.  Observable effects
are modelled as the list of lines written to standard output. -/
def ExternalCircle.render (_ : ExternalCircle) : List String :=
  ["Rendering a Circle (External)."]

/-- `ExternalSquare::render()`: the lines it prints. -/
def ExternalSquare.render (_ : ExternalSquare) : List String :=
  ["Rendering a Square (External)."]

/-- `InternalTriangle::draw()`: the lines it prints. -/
def InternalTriangle.draw (_ : InternalTriangle) : List String :=
  ["Drawing a Triangle (Internal, Conforming)."]

/-- `Dog::makeNoise()`: the lines it prints. -/
def Dog.makeNoise (_ : Dog) : List String :=
  ["Woof! 🐶"]

/-- `Cat::makeNoise()`: the lines it prints. -/
def Cat.makeNoise (_ : Cat) : List String :=
  ["Meow. 😼"]

/-- The `DrawableConcept` implementations instantiated in the source: the
two explicit specializations `DrawableTraits::Model<ExternalCircle>` and
`DrawableTraits::Model<ExternalSquare>`, and the generic
`DrawableTraits::Model<T>` at `T = InternalTriangle`.  Each holds the
wrapped item by value, as the C++ `Model`s do. -/
inductive DrawableModel where
  | circle (c : ExternalCircle)
  | square (s : ExternalSquare)
  | triangle (t : InternalTriangle)
deriving DecidableEq

/-- The virtual `draw()` of each `Model`: the specializations forward to
the external types' differently named `render()`; the generic model
forwards to the conforming `draw()`. -/
def DrawableModel.draw : DrawableModel → List String
  | DrawableModel.circle c => c.render
  | DrawableModel.square s => s.render
  | DrawableModel.triangle t => t.draw

/-- The type-erasing wrapper `Drawable`: `unique_ptr<DrawableConcept> pImpl`
(`none` models a null pointer, e.g. a moved-from wrapper). -/
structure Drawable where
  pImpl : Option DrawableModel
deriving DecidableEq

/-- The templated `Drawable(T item)` constructor at `T = ExternalCircle`:
`pImpl = make_unique<DrawableTraits::Model<ExternalCircle>>(move(item))`. -/
def Drawable.ofCircle (c : ExternalCircle) : Drawable :=
  ⟨some (DrawableModel.circle c)⟩

/-- The templated `Drawable(T item)` constructor at `T = ExternalSquare`. -/
def Drawable.ofSquare (s : ExternalSquare) : Drawable :=
  ⟨some (DrawableModel.square s)⟩

/-- The templated `Drawable(T item)` constructor at `T = InternalTriangle`. -/
def Drawable.ofTriangle (t : InternalTriangle) : Drawable :=
  ⟨some (DrawableModel.triangle t)⟩

/-- `Drawable::draw()`: `if (pImpl) pImpl->draw();` — guards the pointer
and forwards; with a null pointer nothing is invoked and nothing printed. -/
def Drawable.draw (d : Drawable) : List String :=
  match d.pImpl with
  | some impl => impl.draw
  | none => []

/-- The `AnimalConcept` implementations instantiated in the source:
`AnimalModel<Dog>` and `AnimalModel<Cat>`, each holding its animal by
value. -/
inductive AnimalModelObj where
  | dog (d : Dog)
  | cat (c : Cat)
deriving DecidableEq

/-- The virtual `makeNoise()` of `AnimalModel<ConcreteAnimal>`: forwards
to the held object's `makeNoise()`. -/
def AnimalModelObj.makeNoise : AnimalModelObj → List String
  | AnimalModelObj.dog d => d.makeNoise
  | AnimalModelObj.cat c => c.makeNoise

/-- The type-erasing wrapper `Animal`: `unique_ptr<AnimalConcept> pImpl`
(`none` models a null pointer). -/
structure Animal where
  pImpl : Option AnimalModelObj
deriving DecidableEq

/-- The templated `Animal(T animal)` constructor at `T = Dog`. -/
def Animal.ofDog (d : Dog) : Animal := ⟨some (AnimalModelObj.dog d)⟩

/-- The templated `Animal(T animal)` constructor at `T = Cat`. -/
def Animal.ofCat (c : Cat) : Animal := ⟨some (AnimalModelObj.cat c)⟩

/-- `Animal::makeNoise()`: `if (pImpl) { pImpl->makeNoise(); }` — guards
the pointer and forwards; with a null pointer nothing is invoked. -/
def Animal.makeNoise (a : Animal) : List String :=
  match a.pImpl with
  | some m => m.makeNoise
  | none => []

end ConceptPoly

namespace CapCast

lemma initTraits_nextId (ty : OpType) (ifaces : List InterfaceId) :
    ∀ σ : World,
      (TraitManager.initTraits σ ty ifaces).1.nextId
        = σ.nextId + ifaces.length := by
  induction ifaces with
  | nil => intro σ; rfl
  | cons i rest ih =>
    intro σ
    have h1 : (TraitManager.initTraits σ ty (i :: rest)).1
        = (TraitManager.initTraits (Trait.initModel σ ty i).1 ty rest).1 := rfl
    rw [h1, ih]
    simp [Trait.initModel]
    omega

lemma initTraits_models_lt (ty : OpType) (ifaces : List InterfaceId) :
    ∀ (σ : World) (n : Nat), n < σ.nextId →
      (TraitManager.initTraits σ ty ifaces).1.models n = σ.models n := by
  induction ifaces with
  | nil => intro σ n _; rfl
  | cons i rest ih =>
    intro σ n hn
    have h1 : (TraitManager.initTraits σ ty (i :: rest)).1
        = (TraitManager.initTraits (Trait.initModel σ ty i).1 ty rest).1 := rfl
    rw [h1, ih _ n (by simp [Trait.initModel]; omega)]
    simp [Trait.initModel]
    omega

lemma initTraits_slots_iface (ty : OpType) (ifaces : List InterfaceId) :
    ∀ σ : World,
      (TraitManager.initTraits σ ty ifaces).2.map TraitSlot.iface = ifaces := by
  induction ifaces with
  | nil => intro σ; rfl
  | cons i rest ih =>
    intro σ
    have h1 : (TraitManager.initTraits σ ty (i :: rest)).2
        = (Trait.initModel σ ty i).2
          :: (TraitManager.initTraits (Trait.initModel σ ty i).1 ty rest).2 := rfl
    rw [h1]
    simp [Trait.initModel, ih]

lemma initTraits_slot_sound (ty : OpType) (ifaces : List InterfaceId) :
    ∀ σ : World, ∀ s ∈ (TraitManager.initTraits σ ty ifaces).2,
      ∃ k, s.vconcept = some k ∧ σ.nextId ≤ k ∧
        k < σ.nextId + ifaces.length ∧
        (TraitManager.initTraits σ ty ifaces).1.models k = some ty := by
  induction ifaces with
  | nil => intro σ s hs; simp [TraitManager.initTraits] at hs
  | cons i rest ih =>
    intro σ s hs
    have h2 : (TraitManager.initTraits σ ty (i :: rest)).2
        = (Trait.initModel σ ty i).2
          :: (TraitManager.initTraits (Trait.initModel σ ty i).1 ty rest).2 := rfl
    have h1 : (TraitManager.initTraits σ ty (i :: rest)).1
        = (TraitManager.initTraits (Trait.initModel σ ty i).1 ty rest).1 := rfl
    rw [h2] at hs
    rcases List.mem_cons.mp hs with rfl | hs'
    · refine ⟨σ.nextId, rfl, le_refl _, by simp, ?_⟩
      rw [h1, initTraits_models_lt ty rest _ σ.nextId (by simp [Trait.initModel])]
      simp [Trait.initModel]
    · obtain ⟨k, hk, hk1, hk2, hk3⟩ := ih (Trait.initModel σ ty i).1 s hs'
      simp [Trait.initModel] at hk1 hk2
      refine ⟨k, hk, by omega, by simp; omega, ?_⟩
      rw [h1]
      exact hk3

lemma initTraits_slotIds (ty : OpType) (ifaces : List InterfaceId) :
    ∀ σ : World,
      (TraitManager.initTraits σ ty ifaces).2.filterMap TraitSlot.vconcept
        = (List.range ifaces.length).map (fun j => σ.nextId + j) := by
  induction ifaces with
  | nil => intro σ; rfl
  | cons i rest ih =>
    intro σ
    have h2 : (TraitManager.initTraits σ ty (i :: rest)).2
        = (Trait.initModel σ ty i).2
          :: (TraitManager.initTraits (Trait.initModel σ ty i).1 ty rest).2 := rfl
    rw [h2]
    simp [List.filterMap_cons, Trait.initModel, ih,
      List.range_succ_eq_map, List.map_map]
    intro a _
    omega

lemma mkOpInstance_ty (σ : World) (ty : OpType) :
    (mkOpInstance σ ty).2.ty = ty := rfl

lemma mkOpInstance_nextId (σ : World) (ty : OpType) :
    (mkOpInstance σ ty).1.nextId = σ.nextId + ty.declaredTraits.length :=
  initTraits_nextId ty ty.declaredTraits σ

lemma mkOpInstance_slotIds (σ : World) (ty : OpType) :
    (mkOpInstance σ ty).2.slotIds
      = (List.range ty.declaredTraits.length).map (fun j => σ.nextId + j) :=
  initTraits_slotIds ty ty.declaredTraits σ

lemma mkOpInstance_slot_sound (σ : World) (ty : OpType) :
    ∀ s ∈ (mkOpInstance σ ty).2.slots,
      ∃ k, s.vconcept = some k ∧ σ.nextId ≤ k ∧
        k < σ.nextId + ty.declaredTraits.length ∧
        (mkOpInstance σ ty).1.models k = some ty :=
  initTraits_slot_sound ty ty.declaredTraits σ

lemma find?_of_mem {α : Type} (p : α → Bool) (l : List α) (a : α)
    (ha : a ∈ l) (hpa : p a = true) :
    ∃ b ∈ l, l.find? p = some b ∧ p b = true := by
  induction l with
  | nil => cases ha
  | cons x xs ih =>
    by_cases hx : p x = true
    · exact ⟨x, List.mem_cons_self x xs, by simp [List.find?, hx], hx⟩
    · rcases List.mem_cons.mp ha with rfl | ha'
      · exact absurd hpa hx
      · obtain ⟨b, hbmem, hbfind, hbp⟩ := ih ha'
        refine ⟨b, List.mem_cons_of_mem x hbmem, ?_, hbp⟩
        simp only [List.find?]
        rw [Bool.of_not_eq_true hx]
        exact hbfind

/-- After construction, casting to a declared interface returns a handle
bound to the instance and to a `Model` address that the heap maps to the
instance's concrete type. -/
lemma cast_after_mk (σ0 : World) (t : OpType)
    (h : InterfaceId.sideEffects ∈ t.declaredTraits) :
    ∃ k,
      (cast_to_interface (mkOpInstance σ0 t).1 InterfaceId.sideEffects
          (mkOpInstance σ0 t).2).2.2
        = Except.ok ⟨(mkOpInstance σ0 t).2, some k⟩ ∧
      (mkOpInstance σ0 t).1.models k = some t := by
  have hmem : InterfaceId.sideEffects
      ∈ (mkOpInstance σ0 t).2.ty.declaredTraits := h
  have hiface := initTraits_slots_iface t t.declaredTraits σ0
  have hsl : ∃ s ∈ (mkOpInstance σ0 t).2.slots,
      s.iface = InterfaceId.sideEffects := by
    have : InterfaceId.sideEffects
        ∈ (mkOpInstance σ0 t).2.slots.map TraitSlot.iface := by
      rw [show (mkOpInstance σ0 t).2.slots
          = (TraitManager.initTraits σ0 t t.declaredTraits).2 from rfl, hiface]
      exact h
    obtain ⟨s, hs, hseq⟩ := List.mem_map.mp this
    exact ⟨s, hs, hseq⟩
  obtain ⟨s, hs, hseq⟩ := hsl
  obtain ⟨b, hbmem, hbfind, hbp⟩ :=
    find?_of_mem (fun s => decide (s.iface = InterfaceId.sideEffects))
      (mkOpInstance σ0 t).2.slots s hs (by simp [hseq])
  obtain ⟨k, hk, _, _, hmod⟩ := mkOpInstance_slot_sound σ0 t b hbmem
  refine ⟨k, ?_, hmod⟩
  rw [cast_to_interface, if_pos hmem]
  have : TraitManager.getTraitConcept (mkOpInstance σ0 t).2
      InterfaceId.sideEffects = some k := by
    rw [TraitManager.getTraitConcept, hbfind]
    exact hk
  rw [this]

/-- Claim C1: for every concrete type whose trait list declares
`SideEffectsInterface`, `cast_to_interface` on a constructed instance
succeeds (returns a handle, does not throw), and `hasSideEffect()` invoked
through the returned handle equals calling the type's underlying
`hasSideEffect()` method directly. -/
theorem c1_cast_succeeds_and_matches_direct (σ0 : World) (t : OpType)
    (h : InterfaceId.sideEffects ∈ t.declaredTraits) :
    ∃ hd : SideEffectsInterface,
      (cast_to_interface (mkOpInstance σ0 t).1 InterfaceId.sideEffects
          (mkOpInstance σ0 t).2).2.2 = Except.ok hd ∧
      hd.hasSideEffect (mkOpInstance σ0 t).1 = some t.hasSideEffect := by
  obtain ⟨k, hk, hmod⟩ := cast_after_mk σ0 t h
  refine ⟨⟨(mkOpInstance σ0 t).2, some k⟩, hk, ?_⟩
  simp [SideEffectsInterface.hasSideEffect, hmod, Model.hasSideEffect]

/-- Witness for C1 at the concrete type `AddOp` in the empty heap. -/
theorem c1_witness :
    InterfaceId.sideEffects ∈ AddOp.declaredTraits ∧
    ∃ hd : SideEffectsInterface,
      (cast_to_interface (mkOpInstance World.empty AddOp).1
          InterfaceId.sideEffects (mkOpInstance World.empty AddOp).2).2.2
        = Except.ok hd ∧
      hd.hasSideEffect (mkOpInstance World.empty AddOp).1
        = some AddOp.hasSideEffect :=
  ⟨by decide,
   c1_cast_succeeds_and_matches_direct World.empty AddOp (by decide)⟩

/-- Claim C2: for every concrete type whose trait list does not declare
`SideEffectsInterface`, `cast_to_interface` throws the unsupported
interface error, and the heap and the instance (its registry with all its
trait slots) are returned exactly as they were before the call. -/
theorem c2_failed_cast_no_side_effect (σ : World) (inst : OpInstance)
    (i : InterfaceId) (h : i ∉ inst.ty.declaredTraits) :
    cast_to_interface σ i inst
      = (σ, inst,
         Except.error (CastError.unsupportedInterface unsupportedInterfaceMsg)) := by
  simp [cast_to_interface, h]

/-- Witness for C2 at an instance of a concrete type with an empty trait
list (the generic `cast_to_interface` template admits any trait pack). -/
theorem c2_witness :
    InterfaceId.sideEffects
      ∉ (mkOpInstance World.empty (OpType.mk [] false)).2.ty.declaredTraits ∧
    cast_to_interface World.empty InterfaceId.sideEffects
        (mkOpInstance World.empty (OpType.mk [] false)).2
      = (World.empty, (mkOpInstance World.empty (OpType.mk [] false)).2,
         Except.error (CastError.unsupportedInterface unsupportedInterfaceMsg)) :=
  ⟨by decide,
   c2_failed_cast_no_side_effect World.empty
     (mkOpInstance World.empty (OpType.mk [] false)).2
     InterfaceId.sideEffects (by decide)⟩

/-- Claim C3 counterexample: the runtime rejection raises the same fixed
error value — whose message names neither the concrete type nor the
interface — for two distinct concrete types, so the raised error does not
report which type and which interface were requested. -/
theorem c3_counterexample_error_reports_neither :
    OpType.mk [] false ≠ OpType.mk [] true ∧
    (cast_to_interface World.empty InterfaceId.sideEffects
        (mkOpInstance World.empty (OpType.mk [] false)).2).2.2
      = Except.error (CastError.unsupportedInterface unsupportedInterfaceMsg) ∧
    (cast_to_interface World.empty InterfaceId.sideEffects
        (mkOpInstance World.empty (OpType.mk [] true)).2).2.2
      = Except.error (CastError.unsupportedInterface unsupportedInterfaceMsg) ∧
    unsupportedInterfaceMsg = "Op does not implement interface" :=
  ⟨by decide, rfl, rfl, rfl⟩

/-- Claim C3 (amended): when the cast is rejected at runtime because the
target interface is absent from the concrete type's declared set, the
raised error carries the fixed message of the thrown `runtime_error`,
which names neither the concrete type nor the interface. -/
theorem c3_amended_fixed_error_message (σ : World) (inst : OpInstance)
    (i : InterfaceId) (h : i ∉ inst.ty.declaredTraits) :
    (cast_to_interface σ i inst).2.2
      = Except.error (CastError.unsupportedInterface unsupportedInterfaceMsg) := by
  simp [cast_to_interface, h]

/-- Witness for the amended C3 at a concrete type with an empty trait
list. -/
theorem c3_witness :
    InterfaceId.sideEffects
      ∉ (mkOpInstance World.empty (OpType.mk [] true)).2.ty.declaredTraits ∧
    (cast_to_interface World.empty InterfaceId.sideEffects
        (mkOpInstance World.empty (OpType.mk [] true)).2).2.2
      = Except.error (CastError.unsupportedInterface unsupportedInterfaceMsg) :=
  ⟨by decide,
   c3_amended_fixed_error_message World.empty
     (mkOpInstance World.empty (OpType.mk [] true)).2
     InterfaceId.sideEffects (by decide)⟩

/-- Claim C4: for every `AddOp` instance, casting to
`SideEffectsInterface` and invoking `hasSideEffect()` through the handle
returns `false`; for every `LoadOp` instance it returns `true`. -/
theorem c4_addOp_false_loadOp_true (σa σl : World) :
    castAndQuery (mkOpInstance σa AddOp).1 (mkOpInstance σa AddOp).2
      = some false ∧
    castAndQuery (mkOpInstance σl LoadOp).1 (mkOpInstance σl LoadOp).2
      = some true := by
  constructor
  · obtain ⟨k, hk, hmod⟩ := cast_after_mk σa AddOp (by decide)
    rw [castAndQuery, hk]
    simp only [SideEffectsInterface.hasSideEffect]
    rw [hmod]
    rfl
  · obtain ⟨k, hk, hmod⟩ := cast_after_mk σl LoadOp (by decide)
    rw [castAndQuery, hk]
    simp only [SideEffectsInterface.hasSideEffect]
    rw [hmod]
    rfl

/-- Claim C6: two casts of the same instance to the same declared
interface yield handles that are behaviorally indistinguishable — both
bind the same entity to the same Concept pointer, so every operation on
the first handle returns the same result as on the second. -/
theorem c6_double_cast_indistinguishable (σ : World) (inst : OpInstance)
    (i : InterfaceId) (h : i ∈ inst.ty.declaredTraits) :
    ∃ hd1 hd2 : SideEffectsInterface,
      (cast_to_interface σ i inst).2.2 = Except.ok hd1 ∧
      (cast_to_interface (cast_to_interface σ i inst).1 i
          (cast_to_interface σ i inst).2.1).2.2 = Except.ok hd2 ∧
      hd1.entity = hd2.entity ∧ hd1.vconcept = hd2.vconcept ∧
      ∀ σq : World, hd1.hasSideEffect σq = hd2.hasSideEffect σq := by
  have hc : cast_to_interface σ i inst
      = (σ, inst,
         Except.ok ⟨inst, TraitManager.getTraitConcept inst i⟩) := by
    rw [cast_to_interface, if_pos h]
  exact ⟨⟨inst, TraitManager.getTraitConcept inst i⟩,
    ⟨inst, TraitManager.getTraitConcept inst i⟩,
    by simp [hc], by simp [hc], rfl, rfl, fun σq => rfl⟩

/-- Witness for C6 at an `AddOp` instance in the empty heap. -/
theorem c6_witness :
    InterfaceId.sideEffects
      ∈ (mkOpInstance World.empty AddOp).2.ty.declaredTraits ∧
    ∃ hd1 hd2 : SideEffectsInterface,
      (cast_to_interface World.empty InterfaceId.sideEffects
          (mkOpInstance World.empty AddOp).2).2.2 = Except.ok hd1 ∧
      (cast_to_interface
          (cast_to_interface World.empty InterfaceId.sideEffects
            (mkOpInstance World.empty AddOp).2).1 InterfaceId.sideEffects
          (cast_to_interface World.empty InterfaceId.sideEffects
            (mkOpInstance World.empty AddOp).2).2.1).2.2 = Except.ok hd2 ∧
      hd1.entity = hd2.entity ∧ hd1.vconcept = hd2.vconcept ∧
      ∀ σq : World, hd1.hasSideEffect σq = hd2.hasSideEffect σq :=
  ⟨by decide,
   c6_double_cast_indistinguishable World.empty
     (mkOpInstance World.empty AddOp).2 InterfaceId.sideEffects (by decide)⟩

/-- Claim C7: whether the capability cast succeeds is a pure static
property of the (concrete type, interface) pair — for any two instances of
the same concrete type, in any two heaps (capturing arbitrary runtime data
and previous calls), the cast on one succeeds iff the cast on the other
does. -/
theorem c7_castability_static (σx σy : World) (x y : OpInstance)
    (i : InterfaceId) (h : x.ty = y.ty) :
    castSucceeds σx i x = castSucceeds σy i y := by
  by_cases hm : i ∈ y.ty.declaredTraits <;>
    simp [castSucceeds, cast_to_interface, h, hm]

/-- Witness for C7 at two distinct `AddOp` instances constructed one after
the other. -/
theorem c7_witness :
    (mkOpInstance World.empty AddOp).2.ty
      = (mkOpInstance (mkOpInstance World.empty AddOp).1 AddOp).2.ty ∧
    castSucceeds World.empty InterfaceId.sideEffects
        (mkOpInstance World.empty AddOp).2
      = castSucceeds (mkOpInstance World.empty AddOp).1
          InterfaceId.sideEffects
          (mkOpInstance (mkOpInstance World.empty AddOp).1 AddOp).2 :=
  ⟨by decide,
   c7_castability_static World.empty (mkOpInstance World.empty AddOp).1
     (mkOpInstance World.empty AddOp).2
     (mkOpInstance (mkOpInstance World.empty AddOp).1 AddOp).2
     InterfaceId.sideEffects (by decide)⟩

/-- Claim C8 counterexample: initialization is not lazy.  A freshly
constructed `AddOp` instance, on which no cast and no handle operation has
been performed, already holds a built `Model` in its trait slot: the
`TraitManager` constructor runs `initialize` on every slot eagerly, so the
`Model` exists before any first use. -/
theorem c8_counterexample_eager_not_lazy :
    (mkOpInstance World.empty AddOp).2.slots ≠ [] ∧
    ∀ s ∈ (mkOpInstance World.empty AddOp).2.slots, s.vconcept ≠ none := by
  decide

/-- Claim C8 (amended): each trait slot of a constructed instance builds
its `Model` exactly once, eagerly during construction — each slot holds a
freshly allocated `Model` bound to the instance's type, the slots hold
pairwise distinct `Model`s, a later cast never touches the slots, and no
`Model` is shared with an instance constructed afterwards. -/
theorem c8_amended_exactly_once_unshared (σ0 : World) (t u : OpType)
    (hwf : σ0.WF) :
    ((mkOpInstance σ0 t).2.slotIds).Nodup ∧
    (∀ k ∈ (mkOpInstance σ0 t).2.slotIds,
        σ0.models k = none ∧ (mkOpInstance σ0 t).1.models k = some t) ∧
    (∀ i : InterfaceId,
        (cast_to_interface (mkOpInstance (mkOpInstance σ0 t).1 u).1 i
          (mkOpInstance σ0 t).2).2.1 = (mkOpInstance σ0 t).2) ∧
    (∀ k ∈ (mkOpInstance σ0 t).2.slotIds,
        k ∉ (mkOpInstance (mkOpInstance σ0 t).1 u).2.slotIds) := by
  refine ⟨?_, ?_, ?_, ?_⟩
  · rw [mkOpInstance_slotIds]
    exact (List.nodup_range _).map (fun a b hab => by omega)
  · intro k hk
    have hk' := hk
    rw [OpInstance.slotIds] at hk'
    obtain ⟨s, hsmem, hsv⟩ := List.mem_filterMap.mp hk'
    obtain ⟨k2, hk2, hge, hlt, hmod⟩ := mkOpInstance_slot_sound σ0 t s hsmem
    rw [hsv] at hk2
    obtain rfl := Option.some.inj hk2
    exact ⟨hwf k hge, hmod⟩
  · intro i
    rw [cast_to_interface]
    split <;> rfl
  · intro k hk
    rw [mkOpInstance_slotIds] at hk
    obtain ⟨j, hj, rfl⟩ := List.mem_map.mp hk
    have hjlt := List.mem_range.mp hj
    intro hky
    rw [mkOpInstance_slotIds] at hky
    obtain ⟨j2, hj2, heq⟩ := List.mem_map.mp hky
    rw [mkOpInstance_nextId] at heq
    omega

/-- Witness for the amended C8 with an `AddOp` constructed in the empty
heap, followed by a `LoadOp`. -/
theorem c8_witness :
    World.empty.WF ∧
    (((mkOpInstance World.empty AddOp).2.slotIds).Nodup ∧
     (∀ k ∈ (mkOpInstance World.empty AddOp).2.slotIds,
        World.empty.models k = none ∧
        (mkOpInstance World.empty AddOp).1.models k = some AddOp) ∧
     (∀ i : InterfaceId,
        (cast_to_interface
          (mkOpInstance (mkOpInstance World.empty AddOp).1 LoadOp).1 i
          (mkOpInstance World.empty AddOp).2).2.1
          = (mkOpInstance World.empty AddOp).2) ∧
     (∀ k ∈ (mkOpInstance World.empty AddOp).2.slotIds,
        k ∉ (mkOpInstance (mkOpInstance World.empty AddOp).1 LoadOp).2.slotIds)) :=
  ⟨fun _ _ => rfl,
   c8_amended_exactly_once_unshared World.empty AddOp LoadOp (fun _ _ => rfl)⟩

/-- Claim C9: a successful capability cast never returns a handle whose
Concept pointer is null — on a constructed instance of a type declaring
the interface, the returned handle carries a non-null Concept pointer, and
invoking `hasSideEffect()` through it dereferences a live `Model` (no null
dereference). -/
theorem c9_handle_concept_nonnull (σ0 : World) (t : OpType)
    (h : InterfaceId.sideEffects ∈ t.declaredTraits) :
    ∀ hd : SideEffectsInterface,
      (cast_to_interface (mkOpInstance σ0 t).1 InterfaceId.sideEffects
          (mkOpInstance σ0 t).2).2.2 = Except.ok hd →
      hd.vconcept ≠ none ∧
      (hd.hasSideEffect (mkOpInstance σ0 t).1).isSome = true := by
  intro hd hok
  obtain ⟨k, hk, hmod⟩ := cast_after_mk σ0 t h
  rw [hk] at hok
  obtain rfl := Except.ok.inj hok
  exact ⟨by simp, by simp [SideEffectsInterface.hasSideEffect, hmod]⟩

/-- Witness for C9 at an `AddOp` instance in the empty heap. -/
theorem c9_witness :
    InterfaceId.sideEffects ∈ AddOp.declaredTraits ∧
    ∀ hd : SideEffectsInterface,
      (cast_to_interface (mkOpInstance World.empty AddOp).1
          InterfaceId.sideEffects (mkOpInstance World.empty AddOp).2).2.2
        = Except.ok hd →
      hd.vconcept ≠ none ∧
      (hd.hasSideEffect (mkOpInstance World.empty AddOp).1).isSome = true :=
  ⟨by decide, c9_handle_concept_nonnull World.empty AddOp (by decide)⟩

end CapCast

namespace ConceptPoly

/-- Claim C5: for every vocabulary-mismatched external type wrapped by its
specialized `Model`, invoking `draw()` through the Concept produces the
same output as invoking the external type's `render()` directly on the
wrapped object. -/
theorem c5_adapter_routes_to_render (c : ExternalCircle)
    (s : ExternalSquare) :
    (Drawable.ofCircle c).draw = c.render ∧
    (Drawable.ofSquare s).draw = s.render :=
  ⟨rfl, rfl⟩

/-- Claim C10: calling the forwarding method on a type-erasing wrapper
whose implementation pointer is null is a safe no-op — `Drawable::draw`
and `Animal::makeNoise` guard the pointer, invoke nothing, and produce no
output instead of dereferencing a null pointer. -/
theorem c10_null_impl_safe_noop :
    Drawable.draw ⟨none⟩ = ([] : List String) ∧
    Animal.makeNoise ⟨none⟩ = ([] : List String) :=
  ⟨rfl, rfl⟩

end ConceptPoly
